import Mathlib

/-!
Shallow embedding of the Ardour TriggerBox subsystem, translated from
`src/libs/ardour/triggerbox.cc` and `src/libs/ardour/ardour/triggerbox.h`.

Modelling conventions:
- machine integers (`samplepos_t`, `samplecnt_t`, `pframes_t`) are modelled as
  `Int` (no operation in the verified code paths overflows 64 bits);
  the atomic `int` bang/unbang counters are modelled as `Nat` (the claims are
  about non-negative counter values);
- the tempo map is external to the repository, so conversions
  (`Beats::snap_to`, `timepos_t::samples`) are passed as function parameters;
- the PCG pseudo-random generator is external (`pbd/pcg_rand.h`); it is
  modelled as an oracle stream `List Nat` of draws, reduced modulo the
  requested bound; an exhausted stream makes the operation return `none`,
  which also models the non-terminating retry loops of
  `determine_next_trigger` for `AnyTrigger`/`OtherTrigger`;
- audio buffer contents are not part of any claim, so the calls
  `read_from` / `accumulate_from` / `silence` are elided; all state mutation
  and control flow of the source is kept;
- `abort()` calls, failed `assert`s and null-pointer dereferences are
  modelled by returning `none`;
- ring buffers (`explicit_queue`, `implicit_queue`, capacity 64) hold
  `Trigger*`; triggers are identified by their position in `all_triggers`,
  so the queues are modelled as `List Nat` of slot indices and a full queue
  drops the write, exactly as `PBD::RingBuffer::write` does.
-/

namespace ArdourSpec

/-- Trigger::State (triggerbox.h). `None` is the sentinel used for
`_requested_state`. -/
inductive TState where
  | None
  | Stopped
  | WaitingToStart
  | Running
  | WaitingForRetrigger
  | WaitingToStop
  | Stopping
deriving DecidableEq, Repr

/-- Numeric values of the Trigger::State enumerators (triggerbox.h). -/
def TState.code : TState → Nat
  | .None => 0
  | .Stopped => 1
  | .WaitingToStart => 2
  | .Running => 3
  | .WaitingForRetrigger => 4
  | .WaitingToStop => 5
  | .Stopping => 6

/-- Trigger::active(): `_state >= Running` in enum order. -/
def activeState (s : TState) : Bool := TState.Running.code ≤ s.code

/-- Trigger::LaunchStyle (triggerbox.h). -/
inductive LaunchStyle where
  | OneShot
  | Gate
  | Toggle
  | Repeat
deriving DecidableEq, Repr

/-- Trigger::FollowAction (triggerbox.h). -/
inductive FollowAction where
  | Stop
  | Again
  | QueuedTrigger
  | NextTrigger
  | PrevTrigger
  | FirstTrigger
  | LastTrigger
  | AnyTrigger
  | OtherTrigger
deriving DecidableEq, Repr

/-- Trigger::RunType (triggerbox.h). -/
inductive RunType where
  | RunEnd
  | RunStart
  | RunAll
  | RunNone
deriving DecidableEq, Repr

/-- The slice of the external ARDOUR::Region interface the TriggerBox code
consumes: a stable id, a length in samples and a channel count. -/
structure RegionInfo where
  rid : Nat
  lengthSamples : Int
  nChannels : Nat
deriving DecidableEq, Repr

/-- The state of one AudioTrigger slot: the fields of class Trigger together
with those of its only concrete subclass AudioTrigger (triggerbox.h).
The PCM `data` arrays themselves are elided (no claim mentions sample
values); `data.size()` equals `region.nChannels`. -/
structure AudioTrigger where
  state : TState
  requested : TState
  bang : Nat
  unbang : Nat
  index : Nat
  launchStyle : LaunchStyle
  followAction0 : FollowAction
  followAction1 : FollowAction
  followActionProbability : Int
  quantBars : Int
  quantBeats : Int
  quantTicks : Int
  legato : Bool
  region : Option RegionInfo
  name : String
  bangSamples : Int
  bangBeats : Int
  readIndex : Int
  dataLength : Int
  startOffset : Int
  legatoOffset : Int
  usableLength : Int
  lastSample : Int
deriving DecidableEq, Repr

/-- AudioTrigger::AudioTrigger / Trigger::Trigger constructor defaults
(triggerbox.cc): Stopped, no request, Toggle launch, follow actions
NextTrigger/Stop, probability 100, quantization (0,1,0), legato on. -/
def mkAudioTrigger (n : Nat) : AudioTrigger :=
  { state := .Stopped
    requested := .None
    bang := 0
    unbang := 0
    index := n
    launchStyle := .Toggle
    followAction0 := .NextTrigger
    followAction1 := .Stop
    followActionProbability := 100
    quantBars := 0
    quantBeats := 1
    quantTicks := 0
    legato := true
    region := none
    name := ""
    bangSamples := 0
    bangBeats := 0
    readIndex := 0
    dataLength := 0
    startOffset := 0
    legatoOffset := 0
    usableLength := 0
    lastSample := 0 }

/-- The state of a TriggerBox (triggerbox.h): the trigger array, the two
launch queues, the currently playing slot, the stop-all flag, the MIDI
note-to-slot map, and the oracle stream standing for `_pcg`. -/
structure BoxState where
  triggers : List AudioTrigger
  explicitQueue : List Nat
  implicitQueue : List Nat
  currentlyPlaying : Option Nat
  stopAll : Bool
  midiMap : List (Nat × Nat)
  rng : List Nat
deriving DecidableEq, Repr

/-- Indexed read of `all_triggers`. -/
def getTrig (b : BoxState) (i : Nat) : Option AudioTrigger := b.triggers[i]?

/-- Replace trigger `i` (models in-place mutation of `*all_triggers[i]`). -/
def setTrig (b : BoxState) (i : Nat) (t : AudioTrigger) : BoxState :=
  { b with triggers := b.triggers.set i t }

/-- Update one field set of trigger `i` if it exists, else leave the box
unchanged (all call sites guarantee the index is in range). -/
def updTrig (b : BoxState) (i : Nat) (f : AudioTrigger → AudioTrigger) : BoxState :=
  match b.triggers[i]? with
  | some t => setTrig b i (f t)
  | none => b

/-- Trigger::bang(): `_bang.fetch_add (1)`. -/
def bumpBang (b : BoxState) (i : Nat) : BoxState :=
  updTrig b i (fun t => { t with bang := t.bang + 1 })

/-- Trigger::unbang(): `_unbang.fetch_add (1)`. -/
def bumpUnbang (b : BoxState) (i : Nat) : BoxState :=
  updTrig b i (fun t => { t with unbang := t.unbang + 1 })

/-- TriggerBox::clear_implicit(): `implicit_queue.reset ()`. -/
def clear_implicit (b : BoxState) : BoxState := { b with implicitQueue := [] }

/-- TriggerBox::queue_explict(t): write to the explicit queue (capacity 64,
dropped when full), reset the implicit queue, and unbang whatever is
currently playing (the queue writes do not change `currently_playing`). -/
def queue_explict (b : BoxState) (i : Nat) : BoxState :=
  let b2 := { b with
    explicitQueue := if b.explicitQueue.length < 64 then
      b.explicitQueue ++ [i] else b.explicitQueue,
    implicitQueue := ([] : List Nat) }
  match b.currentlyPlaying with
  | some j => bumpUnbang b2 j
  | none => b2

/-- TriggerBox::queue_implicit(t): write (capacity 64) only when the explicit
queue is empty. -/
def queue_implicit (b : BoxState) (i : Nat) : BoxState :=
  if b.explicitQueue.length = 0 then
    (if b.implicitQueue.length < 64 then
      { b with implicitQueue := b.implicitQueue ++ [i] } else b)
  else b

/-- TriggerBox::peek_next_trigger(): head of the explicit queue, else head of
the implicit queue, without consuming. -/
def peek_next_trigger (b : BoxState) : Option Nat :=
  match b.explicitQueue with
  | i :: _ => some i
  | [] =>
    match b.implicitQueue with
    | i :: _ => some i
    | [] => none

/-- TriggerBox::get_next_trigger(): pop the explicit queue, else the implicit
queue. -/
def get_next_trigger (b : BoxState) : Option Nat × BoxState :=
  match b.explicitQueue with
  | i :: rest => (some i, { b with explicitQueue := rest })
  | [] =>
    match b.implicitQueue with
    | i :: rest => (some i, { b with implicitQueue := rest })
    | [] => (none, b)

/-- AudioTrigger::retrigger(): `read_index = _start_offset + _legato_offset;
_legato_offset = 0`. -/
def retrigger (t : AudioTrigger) : AudioTrigger :=
  { t with readIndex := t.startOffset + t.legatoOffset, legatoOffset := 0 }

/-- AudioTrigger::startup(): Trigger::startup() sets WaitingToStart, then
retrigger(). -/
def startup (t : AudioTrigger) : AudioTrigger :=
  retrigger { t with state := .WaitingToStart }

/-- AudioTrigger::jump_start(): state Running (legato start, no
quantization wait), then retrigger(). -/
def jump_start (t : AudioTrigger) : AudioTrigger :=
  retrigger { t with state := .Running }

/-- AudioTrigger::jump_stop(): state Stopped, then retrigger(). -/
def jump_stop (t : AudioTrigger) : AudioTrigger :=
  retrigger { t with state := .Stopped }

/-- Trigger::stop(next): `request_state (Stopped)`. -/
def requestStop (t : AudioTrigger) : AudioTrigger :=
  { t with requested := .Stopped }

/-- AudioTrigger::load_data(ar) on the readable-region path (the PCM copy
itself is elided): sets `data_length = ar->length_samples()`, the region
name, and, when `usable_length` is unset (zero) or larger than the new
data length, resets `usable_length` and `last_sample`. -/
def load_data (t : AudioTrigger) (ar : RegionInfo) : AudioTrigger :=
  let t := { t with dataLength := ar.lengthSamples }
  let t :=
    if t.usableLength = 0 ∨ t.usableLength > t.dataLength then
      { t with usableLength := t.dataLength,
               lastSample := t.startOffset + t.dataLength }
    else t
  { t with name := "region " ++ toString ar.rid }

/-- AudioTrigger::set_region(r): stores the region then calls
`set_length (r->length())`. Because the requested length equals the
region's own length, set_length only performs load_data and skips the
offline stretch (the `newlen == region->length_samples()` early return). -/
def set_region (t : AudioTrigger) (ar : RegionInfo) : AudioTrigger :=
  load_data { t with region := some ar } ar

/-! ### Persisted state (XML) model

`XMLNode::set_property` / `get_property` with the property names used by
Trigger::get_state / set_state.  A missing property leaves the destination
variable unchanged, which is what `get_property` does when the key is
absent. -/

/-- The tree node written by Trigger::get_state and AudioTrigger::get_state:
one optional slot per persisted property. -/
structure TrigNode where
  legato : Option Bool
  launchStyle : Option LaunchStyle
  followAction0 : Option FollowAction
  followAction1 : Option FollowAction
  quantBars : Option Int
  quantBeats : Option Int
  quantTicks : Option Int
  name : Option String
  index : Option Nat
  region : Option Nat
  start : Option Int
  length : Option Int
deriving DecidableEq, Repr

/-- Trigger::get_state(): writes legato, launch-style, follow-action-0/1,
quantization, name, index, and the region id when a region is set. -/
def trigger_get_state (t : AudioTrigger) : TrigNode :=
  { legato := some t.legato
    launchStyle := some t.launchStyle
    followAction0 := some t.followAction0
    followAction1 := some t.followAction1
    quantBars := some t.quantBars
    quantBeats := some t.quantBeats
    quantTicks := some t.quantTicks
    name := some t.name
    index := some t.index
    region := t.region.map (fun r => r.rid)
    start := none
    length := none }

/-- AudioTrigger::get_state(): the Trigger node plus `start`
(`_start_offset`) and `length` (`usable_length`), both in samples. -/
def audio_trigger_get_state (t : AudioTrigger) : TrigNode :=
  { trigger_get_state t with
      start := some t.startOffset
      length := some t.usableLength }

/-- Trigger::set_state(node, version): reads each persisted property into
the member (leaving it unchanged when absent), resolves the region id
through the registry (RegionFactory::region_by_id) and calls set_region on
success; returns 0. -/
def trigger_set_state (registry : Nat → Option RegionInfo) (node : TrigNode)
    (t : AudioTrigger) : Int × AudioTrigger :=
  let t := { t with
    legato := node.legato.getD t.legato
    launchStyle := node.launchStyle.getD t.launchStyle
    followAction0 := node.followAction0.getD t.followAction0
    followAction1 := node.followAction1.getD t.followAction1
    quantBars := node.quantBars.getD t.quantBars
    quantBeats := node.quantBeats.getD t.quantBeats
    quantTicks := node.quantTicks.getD t.quantTicks
    name := node.name.getD t.name
    index := node.index.getD t.index }
  let t :=
    match node.region with
    | some rid =>
      match registry rid with
      | some r => set_region t r
      | none => t
    | none => t
  (0, t)

/-- AudioTrigger::set_state(node, version): the source reads
`if (!Trigger::set_state (node, version)) return -1;` — Trigger::set_state
returns 0, so the branch is always taken and the `start` / `length`
properties below it are never applied.  The dead code after the return
parses both properties into one local `timepos_t t` (default 0) and sets
`_start_offset`, `usable_length` and `last_sample`. -/
def audio_trigger_set_state (registry : Nat → Option RegionInfo)
    (node : TrigNode) (t : AudioTrigger) : Int × AudioTrigger :=
  let (rc, t1) := trigger_set_state registry node t
  if rc = 0 then
    (-1, t1)
  else
    let v : Int := node.start.getD 0
    let t2 := { t1 with startOffset := v }
    let v2 : Int := node.length.getD v
    let t3 := { t2 with usableLength := v2, lastSample := t2.startOffset + v2 }
    (0, t3)

/-! ### Trigger::process_state_requests (triggerbox.cc)

The audio thread drains `_requested_state`, then the `_bang` counter, then
the `_unbang` counter.  The C loops `while ((x = _bang.load ())) {
_bang.fetch_sub (1); ... }` re-read the counter each iteration; nothing in
the loop bodies increments `_bang`, and only `queue_explict` (reached from a
bang) can increment an `_unbang`, so running each drain with fuel equal to
the counter value at loop entry is exact.  `abort()` (bang while state is
the None sentinel) is modelled as `none`. -/

/-- One iteration of the bang-drain switch (after `_bang.fetch_sub (1)`). -/
def handleBang (b : BoxState) (i : Nat) : Option BoxState :=
  match getTrig b i with
  | none => none
  | some t =>
    match t.state with
    | .None => none
    | .Running =>
      match t.launchStyle with
      | .OneShot => some (setTrig b i { t with state := .WaitingForRetrigger })
      | .Gate | .Toggle | .Repeat =>
        some (clear_implicit (setTrig b i { t with state := .WaitingToStop }))
    | .Stopped => some (queue_explict b i)
    | .WaitingToStart | .WaitingToStop | .WaitingForRetrigger | .Stopping =>
      some b

/-- The bang-drain loop, with fuel; exits when the counter reads zero. -/
def drainBangs (i : Nat) : Nat → BoxState → Option BoxState
  | 0, b =>
    match getTrig b i with
    | some t => if t.bang = 0 then some b else none
    | none => none
  | fuel + 1, b =>
    match getTrig b i with
    | none => none
    | some t =>
      if t.bang = 0 then some b
      else
        match handleBang (setTrig b i { t with bang := t.bang - 1 }) i with
        | some b2 => drainBangs i fuel b2
        | none => none

/-- The body of one unbang-drain iteration: only Gate and Repeat react;
Running goes to WaitingToStop, every other state goes straight to
Stopped ("didn't even get started"). -/
def unbangTransition (t : AudioTrigger) : AudioTrigger :=
  if t.launchStyle = .Gate ∨ t.launchStyle = .Repeat then
    match t.state with
    | .Running => { t with state := .WaitingToStop }
    | _ => { t with state := .Stopped }
  else t

/-- One iteration of the unbang-drain switch applied to trigger `i`. -/
def handleUnbang (b : BoxState) (i : Nat) : BoxState :=
  updTrig b i unbangTransition

/-- The unbang-drain loop, with fuel; exits when the counter reads zero. -/
def drainUnbangs (i : Nat) : Nat → BoxState → Option BoxState
  | 0, b =>
    match getTrig b i with
    | some t => if t.unbang = 0 then some b else none
    | none => none
  | fuel + 1, b =>
    match getTrig b i with
    | none => none
    | some t =>
      if t.unbang = 0 then some b
      else
        drainUnbangs i fuel
          (handleUnbang (setTrig b i { t with unbang := t.unbang - 1 }) i)

/-- The requested-state transition for a Stopped request: enter
WaitingToStop unless already there. -/
def stopRequestTransition (t : AudioTrigger) : AudioTrigger :=
  if t.state ≠ .WaitingToStop then { t with state := .WaitingToStop } else t

/-- The two drain loops of process_state_requests, each run with fuel equal
to the counter value it reads at loop entry. -/
def psrDrains (b : BoxState) (i : Nat) : Option BoxState :=
  match getTrig b i with
  | none => none
  | some t1 =>
    match drainBangs i t1.bang b with
    | none => none
    | some b2 =>
      match getTrig b2 i with
      | none => none
      | some t2 => drainUnbangs i t2.unbang b2

/-- Trigger::process_state_requests() for trigger `i`:
`_requested_state.exchange (None)`, fold a Stopped request into
WaitingToStop and a Running request into queue_explict, then drain bangs
and unbangs. -/
def process_state_requests (b : BoxState) (i : Nat) : Option BoxState :=
  match getTrig b i with
  | none => none
  | some t =>
    let req := t.requested
    let b := setTrig b i { t with requested := .None }
    let b :=
      if req ≠ .None ∧ req ≠ t.state then
        match req with
        | .Stopped => updTrig b i stopRequestTransition
        | .Running => queue_explict b i
        | _ => b
      else b
    psrDrains b i

/-! ### TriggerBox::determine_next_trigger (triggerbox.cc) -/

/-- The candidate test used by every follow-action scan:
`all_triggers[n]->region() && !all_triggers[n]->active()`. -/
def trigOk (b : BoxState) (n : Nat) : Bool :=
  match b.triggers[n]? with
  | some t => t.region.isSome && !(activeState t.state)
  | none => false

/-- The increment-and-wrap step of the NextTrigger scan:
`++n; if (n >= all_triggers.size()) n = 0;`. -/
def wrapUp (sz n : Nat) : Nat := if sz ≤ n + 1 then 0 else n + 1

/-- The decrement-and-wrap step of the PrevTrigger scan:
`if (n == 0) n = all_triggers.size() - 1; else n -= 1;`. -/
def wrapDown (sz n : Nat) : Nat := if n = 0 then sz - 1 else n - 1

/-- The NextTrigger scan loop: `++n`, wrap at `all_triggers.size()`, break
when back at `current`, return the first candidate.  Fuel
`all_triggers.size()` covers the full revolution; `none` is the break. -/
def scanUp (b : BoxState) (current : Nat) : Nat → Nat → Option Nat
  | 0, _ => none
  | fuel + 1, n =>
    if wrapUp b.triggers.length n = current then none
    else if trigOk b (wrapUp b.triggers.length n) then
      some (wrapUp b.triggers.length n)
    else scanUp b current fuel (wrapUp b.triggers.length n)

/-- The PrevTrigger scan loop: wrap from 0 to `size - 1`, else `n - 1`. -/
def scanDown (b : BoxState) (current : Nat) : Nat → Nat → Option Nat
  | 0, _ => none
  | fuel + 1, n =>
    if wrapDown b.triggers.length n = current then none
    else if trigOk b (wrapDown b.triggers.length n) then
      some (wrapDown b.triggers.length n)
    else scanDown b current fuel (wrapDown b.triggers.length n)

/-- The AnyTrigger retry loop: draw `_pcg.rand (all_triggers.size())` until
a candidate comes up; an exhausted oracle stream models the (possible)
non-termination of the source loop. -/
def anyLoop (b : BoxState) : List Nat → Option (Nat × List Nat)
  | [] => none
  | v :: rest =>
    if trigOk b (v % b.triggers.length) then some (v % b.triggers.length, rest)
    else anyLoop b rest

/-- The OtherTrigger retry loop: like anyLoop but also rejects `current`. -/
def otherLoop (b : BoxState) (current : Nat) : List Nat → Option (Nat × List Nat)
  | [] => none
  | v :: rest =>
    if v % b.triggers.length = current then otherLoop b current rest
    else if trigOk b (v % b.triggers.length) then
      some (v % b.triggers.length, rest)
    else otherLoop b current rest

/-- The number of triggers with a region (`runnable` in the source). -/
def countRunnable (b : BoxState) : Nat :=
  (b.triggers.filter (fun t => t.region.isSome)).length

/-- The two switches of TriggerBox::determine_next_trigger on the chosen
follow action (the source evaluates `follow_action (which_follow_action)`
in both switches; it is the same value both times): the special cases
Stop / QueuedTrigger / single-runnable, then the real follow actions; any
scan that finds no candidate falls through to `return current`. -/
def followSwitch (b : BoxState) (current : Nat) (which : FollowAction)
    (rest : List Nat) : Option (Int × List Nat) :=
  match which with
  | .Stop => some (-1, rest)
  | .QueuedTrigger => some (-1, rest)
  | _ =>
    if countRunnable b = 1 then some ((current : Int), rest)
    else
      match which with
      | .Again => some ((current : Int), rest)
      | .NextTrigger =>
        some ((((scanUp b current b.triggers.length current).getD current :
          Nat) : Int), rest)
      | .PrevTrigger =>
        some ((((scanDown b current b.triggers.length current).getD current :
          Nat) : Int), rest)
      | .FirstTrigger =>
        some (((((List.range b.triggers.length).find? (trigOk b)).getD
          current : Nat) : Int), rest)
      | .LastTrigger =>
        some (((((List.range b.triggers.length).reverse.find?
          (trigOk b)).getD current : Nat) : Int), rest)
      | .AnyTrigger =>
        (anyLoop b rest).map (fun p => ((p.1 : Int), p.2))
      | .OtherTrigger =>
        (otherLoop b current rest).map (fun p => ((p.1 : Int), p.2))
      | _ => some ((current : Int), rest)

/-- TriggerBox::determine_next_trigger(current): count runnable triggers,
roll `r = _pcg.rand (100)`, pick follow action 0 when
`r <= follow_action_probability` else follow action 1, then run the two
switches.  Returns the chosen slot as `Int` (−1 for Stop/QueuedTrigger)
together with the rest of the oracle stream; `none` models an exhausted
oracle or an out-of-range `current` (unchecked `all_triggers[current]`). -/
def determine_next_trigger (b : BoxState) (current : Nat) (rands : List Nat) :
    Option (Int × List Nat) :=
  match b.triggers[current]?, rands with
  | some ct, v :: rest =>
    followSwitch b current
      (if ((v % 100 : Nat) : Int) ≤ ct.followActionProbability
       then ct.followAction0 else ct.followAction1) rest
  | _, _ => none

/-- TriggerBox::prepare_next(current): run determine_next_trigger with the
box PRNG and, when the result is non-negative, queue it implicitly. -/
def prepare_next (b : BoxState) (current : Nat) : Option BoxState :=
  match determine_next_trigger b current b.rng with
  | none => none
  | some (nxt, rest) =>
    let b := { b with rng := rest }
    if 0 ≤ nxt then some (queue_implicit b nxt.toNat) else some b

/-! ### Trigger::maybe_compute_next_transition (triggerbox.cc)

`Beats` values are modelled as `Int`; the external tempo-map operations are
parameters: `snap start qbeats qticks` stands for
`start.snap_to (Beats (_quantization.beats, _quantization.ticks))` and
`toSamples ev` for `ev_time.samples ()`. -/

/-- The start transition shared by WaitingToStart and WaitingForRetrigger:
`retrigger (); _state = Running;`. -/
def startTransition (t : AudioTrigger) : AudioTrigger :=
  { (retrigger t) with state := .Running }

/-- Trigger::maybe_compute_next_transition(start, end) for trigger `i`.
When `_quantization.bars != 0` the source leaves `ev_time` as the
default-constructed beat time (0): the "XXX not yet handled" branch. -/
def maybe_compute_next_transition (snap : Int → Int → Int → Int)
    (toSamples : Int → Int) (b : BoxState) (i : Nat) (startB endB : Int) :
    Option (RunType × BoxState) :=
  match getTrig b i with
  | none => none
  | some t =>
    match t.state with
    | .Stopped => some (.RunNone, b)
    | .Running => some (.RunAll, b)
    | .Stopping => some (.RunAll, b)
    | _ =>
      let ev : Int :=
        if t.quantBars = 0 then snap startB t.quantBeats t.quantTicks else 0
      if startB ≤ ev ∧ ev < endB then
        let t := { t with bangSamples := toSamples ev, bangBeats := ev }
        if t.state = .WaitingToStop then
          some (.RunEnd, setTrig b i { t with state := .Stopping })
        else if t.state = .WaitingToStart then
          match prepare_next (setTrig b i (startTransition t)) i with
          | some b3 => some (.RunStart, b3)
          | none => none
        else if t.state = .WaitingForRetrigger then
          match prepare_next (setTrig b i (startTransition t)) i with
          | some b3 => some (.RunAll, b3)
          | none => none
        else
          some (.RunNone, setTrig b i t)
      else
        if t.state = .WaitingForRetrigger ∨ t.state = .WaitingToStop then
          some (.RunAll, b)
        else
          some (.RunNone, b)

/-! ### AudioTrigger::run (triggerbox.cc)

The audio rendering (`read_from` / `accumulate_from` / `silence`) writes
output buffers only and feeds nothing back into the trigger state, so it is
elided; the cursor arithmetic, the end-of-clip branching and the state
changes are kept verbatim.  The `while (nframes)` loop is run on fuel;
`none` models the loop not terminating (which the source does when a
Repeat-style trigger has a zero usable length). -/

/-- The main loop of AudioTrigger::run for trigger `i`:
`this_read = min (nframes, last_sample - read_index)`, advance the cursor,
and on reaching `last_sample` either retrigger (Repeat launch style or the
queued next trigger is this same trigger) or silence the remainder, set
Stopped and break. -/
def audioRunLoop (i : Nat) : Nat → BoxState → Int → Option BoxState
  | 0, _, _ => none
  | fuel + 1, b, nframes =>
    if nframes = 0 then some b
    else
      match getTrig b i with
      | none => none
      | some t =>
        let thisRead := min nframes (t.lastSample - t.readIndex)
        let t1 := { t with readIndex := t.readIndex + thisRead }
        let b1 := setTrig b i t1
        if t1.lastSample ≤ t1.readIndex then
          if t1.launchStyle = .Repeat ∨ peek_next_trigger b1 = some i then
            audioRunLoop i fuel (setTrig b1 i (retrigger t1)) (nframes - thisRead)
          else
            some (setTrig b1 i { t1 with state := .Stopped })
        else
          audioRunLoop i fuel b1 (nframes - thisRead)

/-- AudioTrigger::run(bufs, nframes, dest_offset, first): record
`long_enough_to_fade = (nframes >= 64)` at entry, run the main loop, then
fold a Stopping state into Stopped when the block was long enough to fade.
The entry assertions (`assert (ar)`, `assert (active ())`) are modelled as
`none` on violation. -/
def audio_trigger_run (b : BoxState) (i : Nat) (nframes : Int) :
    Option BoxState :=
  match getTrig b i with
  | none => none
  | some t =>
    if t.region.isNone then none
    else if !(activeState t.state) then none
    else
      let longEnoughToFade := 64 ≤ nframes
      match audioRunLoop i (2 * nframes.toNat + 3) b nframes with
      | none => none
      | some b1 =>
        match getTrig b1 i with
        | none => none
        | some t1 =>
          if t1.state = .Stopping ∧ longEnoughToFade then
            some (setTrig b1 i { t1 with state := .Stopped })
          else some b1

/-! ### TriggerBox MIDI ingestion and per-block run (triggerbox.cc) -/

/-- A MIDI event as far as process_midi_trigger_requests looks at it:
`is_note ()`, `is_note_on ()`, `is_note_off ()` and `note ()`. -/
inductive MidiEvent where
  | noteOn (note : Nat)
  | noteOff (note : Nat)
  | other
deriving DecidableEq, Repr

/-- One note event of TriggerBox::process_midi_trigger_requests: look the
note up in `midi_trigger_map`; when found, `assert (mt->second <
all_triggers.size ())` then bang (note-on) or unbang (note-off) the slot.
When the note is absent the local `Trigger* t` stays null and
`t->bang ()` / `t->unbang ()` dereferences it: modelled as `none`, as is
the failed assert (out-of-range `all_triggers[mt->second]`). -/
def midiNote (b : BoxState) (note : Nat) (isOn : Bool) : Option BoxState :=
  match b.midiMap.lookup note with
  | some slot =>
    if slot < b.triggers.length then
      some (if isOn then bumpBang b slot else bumpUnbang b slot)
    else none
  | none => none

/-- TriggerBox::process_midi_trigger_requests(bufs): fold every note event
of every MIDI buffer through midiNote; non-note events are skipped. -/
def process_midi_trigger_requests (b : BoxState) :
    List MidiEvent → Option BoxState
  | [] => some b
  | .noteOn note :: rest =>
    match midiNote b note true with
    | some b1 => process_midi_trigger_requests b1 rest
    | none => none
  | .noteOff note :: rest =>
    match midiNote b note false with
    | some b1 => process_midi_trigger_requests b1 rest
    | none => none
  | .other :: rest => process_midi_trigger_requests b rest

/-- The `for (n = 0; n < all_triggers.size(); ++n)
all_triggers[n]->process_state_requests ()` loop of TriggerBox::run. -/
def processAllStateRequests (b : BoxState) : List Nat → Option BoxState
  | [] => some b
  | n :: rest =>
    match process_state_requests b n with
    | some b1 => processAllStateRequests b1 rest
    | none => none

/-- TriggerBox::stop_all(): `stop (-1)` on every trigger (which requests
state Stopped) and reset both queues. -/
def box_stop_all (b : BoxState) : BoxState :=
  { b with
      triggers := b.triggers.map requestStop
      explicitQueue := []
      implicitQueue := [] }

/-- The dispatch loop of TriggerBox::run (`while (currently_playing)`):
compute the run type (maybe_compute_next_transition in a waiting state,
RunAll otherwise), return on RunNone, compute `dest_offset` /
`trigger_samples` per run type, pre-roll determine_next_trigger when the
trigger just left WaitingToStart (the source discards the result but the
PRNG advances), render through audio_trigger_run, and on a Stopped trigger
pop the next queued trigger (propagating the legato offset) or clear
`currently_playing`. -/
def dispatchLoop (snap : Int → Int → Int → Int) (toSamples : Int → Int)
    (startSample : Int) (nframes : Int) (startB endB : Int) (i : Nat) :
    Nat → BoxState → Option BoxState
  | 0, _ => none
  | fuel + 1, b =>
    match b.currentlyPlaying with
    | none => some b
    | some cp =>
      match getTrig b cp with
      | none => none
      | some t =>
        if t.state.code < TState.WaitingToStart.code then none
        else
          let mc :=
            match t.state with
            | .WaitingToStop | .WaitingToStart | .WaitingForRetrigger =>
              maybe_compute_next_transition snap toSamples b cp startB endB
            | _ => some (.RunAll, b)
          match mc with
          | none => none
          | some (rt, b1) =>
            if rt = .RunNone then some b1
            else
              match getTrig b1 cp with
              | none => none
              | some t1 =>
                let wasWaitingToStart := t.state = .WaitingToStart
                let trigger_samples : Int :=
                  match rt with
                  | .RunEnd => nframes - (t1.bangSamples - startSample)
                  | .RunStart => nframes - max 0 (t1.bangSamples - startSample)
                  | _ => nframes
                let adv :=
                  if wasWaitingToStart then
                    match determine_next_trigger b1 cp b1.rng with
                    | some (_, rest) => some { b1 with rng := rest }
                    | none => none
                  else some b1
                match adv with
                | none => none
                | some b2 =>
                  match audio_trigger_run b2 cp trigger_samples with
                  | none => none
                  | some b3 =>
                    match getTrig b3 cp with
                    | none => none
                    | some t3 =>
                      if t3.state = .Stopped then
                        let (nxt, b4) := get_next_trigger b3
                        match nxt with
                        | some j =>
                          let b5 :=
                            updTrig b4 j (fun tj =>
                              if tj.legato then
                                { tj with legatoOffset := t3.readIndex }
                              else tj)
                          let b6 := updTrig b5 j startup
                          dispatchLoop snap toSamples startSample nframes
                            startB endB i fuel
                            { b6 with currentlyPlaying := some j }
                        | none =>
                          dispatchLoop snap toSamples startSample nframes
                            startB endB i fuel
                            { b4 with currentlyPlaying := none }
                      else some b3

/-- TriggerBox::run(bufs, start_sample, end_sample, speed, nframes,
result_required): return immediately when `start_sample < 0`; otherwise
MIDI ingestion, state folding for every trigger, acquiring a playing
trigger from the queues, the legato pre-emption peek of the explicit queue,
the stop-all exchange, and the dispatch loop.  `startB` / `endB` are the
block's beat positions from the external tempo map. -/
def box_run (snap : Int → Int → Int → Int) (toSamples : Int → Int)
    (fuel : Nat) (b : BoxState) (events : List MidiEvent)
    (startSample endSample : Int) (nframes : Int) (startB endB : Int) :
    Option BoxState :=
  if startSample < 0 then some b
  else
    match process_midi_trigger_requests b events with
    | none => none
    | some b1 =>
      match processAllStateRequests b1 (List.range b1.triggers.length) with
      | none => none
      | some b2 =>
        let b3 :=
          match b2.currentlyPlaying with
          | some _ => b2
          | none =>
            let (nxt, b3a) := get_next_trigger b2
            match nxt with
            | some j => updTrig { b3a with currentlyPlaying := some j } j startup
            | none => b3a
        match b3.currentlyPlaying with
        | none => some b3
        | some cp =>
          let legatoStep : Option BoxState :=
            match b3.explicitQueue with
            | [] => some b3
            | _ :: _ =>
              let (nxt, b4) := get_next_trigger b3
              match nxt with
              | some j =>
                if j ≠ cp then
                  match getTrig b4 j, getTrig b4 cp with
                  | some tj, some tcp =>
                    if tj.legato then
                      let b5 := setTrig b4 j
                        (jump_start { tj with legatoOffset := tcp.readIndex })
                      let b6 := updTrig b5 cp jump_stop
                      match prepare_next b6 j with
                      | some b7 => some { b7 with currentlyPlaying := some j }
                      | none => none
                    else some b4
                  | _, _ => none
                else some b4
              | none => some b3
          match legatoStep with
          | none => none
          | some b8 =>
            let b9 := if b8.stopAll then { (box_stop_all b8) with stopAll := false }
                      else b8
            dispatchLoop snap toSamples startSample nframes startB endB cp
              fuel b9

/-- TriggerBox::TriggerBox(s, DataType::AUDIO): eight default AudioTrigger
slots and the default MIDI map, notes 60..69 to slots 0..9. -/
def mkDefaultBox : BoxState :=
  { triggers := (List.range 8).map mkAudioTrigger
    explicitQueue := []
    implicitQueue := []
    currentlyPlaying := none
    stopAll := false
    midiMap := [(60, 0), (61, 1), (62, 2), (63, 3), (64, 4), (65, 5),
                (66, 6), (67, 7), (68, 8), (69, 9)]
    rng := [] }

/-! ### Specification-side description of the NextTrigger scan

For the refinement claim about `determine_next_trigger`'s NextTrigger case,
the spec sentence "scan indices (current+1) mod N, (current+2) mod N, ...
stopping at first with non-null region AND not active; stop after one full
revolution" is written out directly as a first-match over that probe
list. -/

/-- The probe order of the spec: `(current+1) mod N, ..., (current+N-1) mod
N`, each other index exactly once. -/
def nextProbes (b : BoxState) (current : Nat) : List Nat :=
  (List.range (b.triggers.length - 1)).map
    (fun k => (current + 1 + k) % b.triggers.length)

/-- Modelled from the spec: the slot NextTrigger selects — the first probe
with a region and not active, or `current` when the revolution finds
none. -/
def nextScanSpec (b : BoxState) (current : Nat) : Nat :=
  ((nextProbes b current).find? (trigOk b)).getD current

/-- Wrap-around step of the up-scan equals a modulus step while the
index stays below the array size. -/
lemma wrapUp_mod (sz n : Nat) (hn : n < sz) : wrapUp sz n = (n + 1) % sz := by
  unfold wrapUp
  by_cases h : sz ≤ n + 1
  · have h2 : n + 1 = sz := by omega
    simp [h, h2]
  · have hlt : n + 1 < sz := by omega
    simp [h, Nat.mod_eq_of_lt hlt]

/-- A successful up-scan returns a candidate slot. -/
lemma scanUp_ok (b : BoxState) (current : Nat) :
    ∀ (fuel n m : Nat), scanUp b current fuel n = some m → trigOk b m = true := by
  intro fuel
  induction fuel with
  | zero => intro n m h; simp [scanUp] at h
  | succ f ih =>
    intro n m h
    rw [scanUp] at h
    by_cases h1 : wrapUp b.triggers.length n = current
    · rw [if_pos h1] at h; cases h
    · rw [if_neg h1] at h
      by_cases h2 : trigOk b (wrapUp b.triggers.length n) = true
      · rw [if_pos h2] at h
        cases h
        exact h2
      · rw [if_neg h2] at h
        exact ih _ _ h

/-- A successful down-scan returns a candidate slot. -/
lemma scanDown_ok (b : BoxState) (current : Nat) :
    ∀ (fuel n m : Nat), scanDown b current fuel n = some m → trigOk b m = true := by
  intro fuel
  induction fuel with
  | zero => intro n m h; simp [scanDown] at h
  | succ f ih =>
    intro n m h
    rw [scanDown] at h
    by_cases h1 : wrapDown b.triggers.length n = current
    · rw [if_pos h1] at h; cases h
    · rw [if_neg h1] at h
      by_cases h2 : trigOk b (wrapDown b.triggers.length n) = true
      · rw [if_pos h2] at h
        cases h
        exact h2
      · rw [if_neg h2] at h
        exact ih _ _ h

/-- A successful AnyTrigger retry loop returns a candidate slot. -/
lemma anyLoop_ok (b : BoxState) :
    ∀ (l : List Nat) (m : Nat) (rest : List Nat),
      anyLoop b l = some (m, rest) → trigOk b m = true := by
  intro l
  induction l with
  | nil => intro m rest h; simp [anyLoop] at h
  | cons v tl ih =>
    intro m rest h
    rw [anyLoop] at h
    by_cases h2 : trigOk b (v % b.triggers.length) = true
    · rw [if_pos h2] at h
      cases h
      exact h2
    · rw [if_neg h2] at h
      exact ih m rest h

/-- A successful OtherTrigger retry loop returns a candidate slot. -/
lemma otherLoop_ok (b : BoxState) (current : Nat) :
    ∀ (l : List Nat) (m : Nat) (rest : List Nat),
      otherLoop b current l = some (m, rest) → trigOk b m = true := by
  intro l
  induction l with
  | nil => intro m rest h; simp [otherLoop] at h
  | cons v tl ih =>
    intro m rest h
    rw [otherLoop] at h
    by_cases h1 : v % b.triggers.length = current
    · rw [if_pos h1] at h
      exact ih m rest h
    · rw [if_neg h1] at h
      by_cases h2 : trigOk b (v % b.triggers.length) = true
      · rw [if_pos h2] at h
        cases h
        exact h2
      · rw [if_neg h2] at h
        exact ih m rest h

/-- Adding a nonzero offset below the modulus moves any residue off
itself. -/
lemma add_mod_ne_self (current e sz : Nat) (hc : current < sz)
    (he1 : 1 ≤ e) (he2 : e < sz) : (current + e) % sz ≠ current := by
  intro h
  rcases Nat.lt_or_ge (current + e) sz with hlt | hge
  · rw [Nat.mod_eq_of_lt hlt] at h
    omega
  · have h2 : (current + e) % sz = current + e - sz := by
      rw [Nat.mod_eq_sub_mod hge, Nat.mod_eq_of_lt (by omega)]
    omega

/-- The up-scan with fuel `f + 1`, started `sz - (f + 1)` steps past
`current`, computes the first match over the remaining probe positions. -/
lemma scanUp_eq_find (b : BoxState) (current : Nat)
    (hc : current < b.triggers.length) :
    ∀ (f : Nat), f + 1 ≤ b.triggers.length →
      scanUp b current (f + 1)
        ((current + (b.triggers.length - (f + 1))) % b.triggers.length) =
      ((List.range f).map
        (fun k => (current + (b.triggers.length - (f + 1)) + 1 + k) %
          b.triggers.length)).find? (trigOk b) := by
  intro f
  induction f with
  | zero =>
    intro hf
    have hN : 0 < b.triggers.length := by omega
    have hn0 : (current + (b.triggers.length - 1)) % b.triggers.length <
        b.triggers.length := Nat.mod_lt _ hN
    rw [scanUp, wrapUp_mod _ _ hn0, Nat.mod_add_mod]
    have h3 : current + (b.triggers.length - 1) + 1 =
        current + b.triggers.length := by omega
    rw [h3, Nat.add_mod_right, Nat.mod_eq_of_lt hc]
    simp
  | succ f ih =>
    intro hf
    have hN : 0 < b.triggers.length := by omega
    have hn0 : (current + (b.triggers.length - (f + 2))) % b.triggers.length <
        b.triggers.length := Nat.mod_lt _ hN
    rw [scanUp, wrapUp_mod _ _ hn0, Nat.mod_add_mod]
    have h3 : current + (b.triggers.length - (f + 2)) + 1 =
        current + (b.triggers.length - (f + 1)) := by omega
    rw [h3]
    have hne : (current + (b.triggers.length - (f + 1))) % b.triggers.length ≠
        current :=
      add_mod_ne_self current (b.triggers.length - (f + 1)) _ hc (by omega)
        (by omega)
    rw [if_neg hne]
    have hmap : (List.range (f + 1)).map
        (fun k => (current + (b.triggers.length - (f + 1)) + k) %
          b.triggers.length) =
        ((current + (b.triggers.length - (f + 1))) % b.triggers.length) ::
        (List.range f).map
          (fun k => (current + (b.triggers.length - (f + 1)) + 1 + k) %
            b.triggers.length) := by
      rw [List.range_succ_eq_map, List.map_cons, List.map_map]
      refine congrArg₂ List.cons (by simp) ?_
      have harg : ((fun k => (current + (b.triggers.length - (f + 1)) + k) %
          b.triggers.length) ∘ Nat.succ) =
          (fun k => (current + (b.triggers.length - (f + 1)) + 1 + k) %
            b.triggers.length) := by
        funext k
        simp only [Function.comp_apply]
        congr 1
        omega
      rw [harg]
    rw [hmap]
    by_cases h2 : trigOk b
        ((current + (b.triggers.length - (f + 1))) % b.triggers.length) = true
    · rw [if_pos h2, List.find?_cons_of_pos _ h2]
    · rw [if_neg h2, List.find?_cons_of_neg _ (by simpa using h2)]
      exact ih (by omega)

/-- The up-scan started at `current` with fuel `all_triggers.size()` (what
the NextTrigger case runs) is the spec's first match over the probe
list. -/
lemma scanUp_spec (b : BoxState) (current : Nat)
    (hc : current < b.triggers.length) :
    scanUp b current b.triggers.length current =
    (nextProbes b current).find? (trigOk b) := by
  have h := scanUp_eq_find b current hc (b.triggers.length - 1) (by omega)
  have e1 : b.triggers.length - 1 + 1 = b.triggers.length := by omega
  rw [e1] at h
  have e2 : b.triggers.length - b.triggers.length = 0 := Nat.sub_self _
  rw [e2] at h
  simp only [Nat.add_zero, Nat.mod_eq_of_lt hc] at h
  unfold nextProbes
  exact h

/-! ### Frame lemmas for the state-request drain loops -/

lemma getTrig_lt (b : BoxState) (i : Nat) (t : AudioTrigger)
    (h : getTrig b i = some t) : i < b.triggers.length := by
  by_contra hc
  rw [getTrig, List.getElem?_eq_none (by omega)] at h
  cases h

lemma getTrig_setTrig_self (b : BoxState) (i : Nat) (t : AudioTrigger)
    (h : i < b.triggers.length) : getTrig (setTrig b i t) i = some t := by
  simp [getTrig, setTrig, List.getElem?_set_self h]

lemma getTrig_setTrig_ne (b : BoxState) (i j : Nat) (t : AudioTrigger)
    (h : i ≠ j) : getTrig (setTrig b i t) j = getTrig b j := by
  simp [getTrig, setTrig, List.getElem?_set_ne h]

lemma getTrig_updTrig_self (b : BoxState) (i : Nat)
    (f : AudioTrigger → AudioTrigger) :
    getTrig (updTrig b i f) i = (getTrig b i).map f := by
  unfold updTrig
  cases hk : b.triggers[i]? with
  | none => simp [getTrig, hk]
  | some tk =>
    show getTrig (setTrig b i (f tk)) i = Option.map f (getTrig b i)
    rw [getTrig_setTrig_self _ _ _ (getTrig_lt b i tk hk)]
    simp [getTrig, hk]

lemma getTrig_updTrig_ne (b : BoxState) (k j : Nat)
    (f : AudioTrigger → AudioTrigger) (h : k ≠ j) :
    getTrig (updTrig b k f) j = getTrig b j := by
  unfold updTrig
  cases hk : b.triggers[k]? with
  | none => rfl
  | some tk =>
    show getTrig (setTrig b k (f tk)) j = getTrig b j
    exact getTrig_setTrig_ne _ _ _ _ h

lemma getTrig_clear_implicit (b : BoxState) (j : Nat) :
    getTrig (clear_implicit b) j = getTrig b j := rfl

/-- getTrig only reads the trigger array. -/
lemma getTrig_congr (b2 b : BoxState) (h : b2.triggers = b.triggers) (j : Nat) :
    getTrig b2 j = getTrig b j := by
  simp [getTrig, h]

lemma getTrig_bumpUnbang_self (b : BoxState) (j : Nat) :
    getTrig (bumpUnbang b j) j =
    (getTrig b j).map (fun t => { t with unbang := t.unbang + 1 }) :=
  getTrig_updTrig_self b j _

lemma getTrig_bumpUnbang_ne (b : BoxState) (k j : Nat) (h : k ≠ j) :
    getTrig (bumpUnbang b k) j = getTrig b j :=
  getTrig_updTrig_ne b k j _ h

/-- queue_explict touches only the queues and possibly increments the
unbang counter of the currently playing trigger. -/
lemma queue_explict_getTrig (b : BoxState) (k j : Nat) (t : AudioTrigger)
    (h : getTrig b j = some t) :
    getTrig (queue_explict b k) j = some t ∨
    getTrig (queue_explict b k) j = some { t with unbang := t.unbang + 1 } := by
  unfold queue_explict
  cases hc : b.currentlyPlaying with
  | none =>
    left
    exact h
  | some cp =>
    by_cases hcj : cp = j
    · subst hcj
      right
      rw [getTrig_bumpUnbang_self]
      have h2 : getTrig { b with
          explicitQueue := if b.explicitQueue.length < 64 then
            b.explicitQueue ++ [k] else b.explicitQueue,
          implicitQueue := ([] : List Nat),
          currentlyPlaying := some cp } cp = getTrig b cp := rfl
      rw [h2, h]
      rfl
    · left
      rw [getTrig_bumpUnbang_ne _ _ _ hcj]
      exact h

/-- One bang-drain iteration keeps the bang counter, the requested state
and the non-None-ness of the state of the handled trigger. -/
lemma handleBang_spec (b : BoxState) (i : Nat) (t : AudioTrigger)
    (h : getTrig b i = some t) (hs : t.state ≠ TState.None) :
    ∃ b2 t2, handleBang b i = some b2 ∧ getTrig b2 i = some t2 ∧
      t2.bang = t.bang ∧ t2.requested = t.requested ∧
      t2.state ≠ TState.None := by
  have hlt := getTrig_lt b i t h
  simp only [handleBang, h]
  cases hst : t.state with
  | None => exact absurd hst hs
  | Running =>
    cases hls : t.launchStyle with
    | OneShot =>
      exact ⟨_,
        { t with state := TState.WaitingForRetrigger,
                 launchStyle := LaunchStyle.OneShot },
        rfl, getTrig_setTrig_self b i _ hlt, rfl, rfl, by simp⟩
    | Gate =>
      refine ⟨_,
        { t with state := TState.WaitingToStop,
                 launchStyle := LaunchStyle.Gate },
        rfl, ?_, rfl, rfl, by simp⟩
      rw [getTrig_clear_implicit]
      exact getTrig_setTrig_self b i _ hlt
    | Toggle =>
      refine ⟨_,
        { t with state := TState.WaitingToStop,
                 launchStyle := LaunchStyle.Toggle },
        rfl, ?_, rfl, rfl, by simp⟩
      rw [getTrig_clear_implicit]
      exact getTrig_setTrig_self b i _ hlt
    | Repeat =>
      refine ⟨_,
        { t with state := TState.WaitingToStop,
                 launchStyle := LaunchStyle.Repeat },
        rfl, ?_, rfl, rfl, by simp⟩
      rw [getTrig_clear_implicit]
      exact getTrig_setTrig_self b i _ hlt
  | Stopped =>
    rcases queue_explict_getTrig b i i t h with hq | hq
    · exact ⟨_, t, rfl, hq, rfl, rfl, by rw [hst]; decide⟩
    · exact ⟨_, { t with unbang := t.unbang + 1 }, rfl, hq, rfl, rfl, by
        show t.state ≠ TState.None
        rw [hst]; decide⟩
  | WaitingToStart => exact ⟨b, t, rfl, h, rfl, rfl, by rw [hst]; decide⟩
  | WaitingToStop => exact ⟨b, t, rfl, h, rfl, rfl, by rw [hst]; decide⟩
  | WaitingForRetrigger => exact ⟨b, t, rfl, h, rfl, rfl, by rw [hst]; decide⟩
  | Stopping => exact ⟨b, t, rfl, h, rfl, rfl, by rw [hst]; decide⟩

/-- The bang-drain loop run with fuel equal to the counter value empties
the counter and keeps the requested state. -/
lemma drainBangs_spec (i : Nat) :
    ∀ (fuel : Nat) (b : BoxState) (t : AudioTrigger),
      getTrig b i = some t → t.bang = fuel → t.state ≠ TState.None →
      ∃ b2 t2, drainBangs i fuel b = some b2 ∧ getTrig b2 i = some t2 ∧
        t2.bang = 0 ∧ t2.requested = t.requested ∧
        t2.state ≠ TState.None := by
  intro fuel
  induction fuel with
  | zero =>
    intro b t h hbang hs
    refine ⟨b, t, ?_, h, hbang, rfl, hs⟩
    simp only [drainBangs, h]
    rw [if_pos hbang]
  | succ f ih =>
    intro b t h hbang hs
    simp only [drainBangs, h]
    rw [if_neg (by omega)]
    have h1 : getTrig (setTrig b i { t with bang := t.bang - 1 }) i =
        some { t with bang := t.bang - 1 } :=
      getTrig_setTrig_self _ _ _ (getTrig_lt b i t h)
    obtain ⟨b2, t2, hh, hg2, hbang2, hreq2, hst2⟩ :=
      handleBang_spec _ i _ h1 (by simpa using hs)
    rw [hh]
    have hb2 : t2.bang = f := by
      rw [hbang2]
      simp
      omega
    obtain ⟨b3, t3, hd, hg3, h0, hreq3, hst3⟩ := ih b2 t2 hg2 hb2 hst2
    exact ⟨b3, t3, hd, hg3, h0, by rw [hreq3, hreq2], hst3⟩

/-- The unbang transition changes only the state field. -/
lemma unbangTransition_frame (t : AudioTrigger) :
    (unbangTransition t).bang = t.bang ∧
    (unbangTransition t).unbang = t.unbang ∧
    (unbangTransition t).requested = t.requested := by
  unfold unbangTransition
  by_cases hls : t.launchStyle = LaunchStyle.Gate ∨
      t.launchStyle = LaunchStyle.Repeat
  · rw [if_pos hls]
    cases t.state <;> exact ⟨rfl, rfl, rfl⟩
  · rw [if_neg hls]
    exact ⟨rfl, rfl, rfl⟩

/-- The unbang-drain loop run with fuel equal to the counter value empties
the counter and keeps the bang counter and the requested state. -/
lemma drainUnbangs_spec (i : Nat) :
    ∀ (fuel : Nat) (b : BoxState) (t : AudioTrigger),
      getTrig b i = some t → t.unbang = fuel →
      ∃ b2 t2, drainUnbangs i fuel b = some b2 ∧ getTrig b2 i = some t2 ∧
        t2.unbang = 0 ∧ t2.bang = t.bang ∧ t2.requested = t.requested := by
  intro fuel
  induction fuel with
  | zero =>
    intro b t h hun
    refine ⟨b, t, ?_, h, hun, rfl, rfl⟩
    simp only [drainUnbangs, h]
    rw [if_pos hun]
  | succ f ih =>
    intro b t h hun
    simp only [drainUnbangs, h]
    rw [if_neg (by omega)]
    have h1 : getTrig (setTrig b i { t with unbang := t.unbang - 1 }) i =
        some { t with unbang := t.unbang - 1 } :=
      getTrig_setTrig_self _ _ _ (getTrig_lt b i t h)
    have h2 : getTrig (handleUnbang
        (setTrig b i { t with unbang := t.unbang - 1 }) i) i =
        some (unbangTransition { t with unbang := t.unbang - 1 }) := by
      unfold handleUnbang
      rw [getTrig_updTrig_self, h1]
      rfl
    obtain ⟨hfb, hfu, hfr⟩ :=
      unbangTransition_frame { t with unbang := t.unbang - 1 }
    obtain ⟨b3, t3, hd, hg3, h0, hbb, hreq3⟩ := ih _ _ h2 (by
      rw [hfu]
      simp
      omega)
    refine ⟨b3, t3, hd, hg3, h0, ?_, ?_⟩
    · rw [hbb, hfb]
    · rw [hreq3, hfr]

/-- Both drain loops together leave both counters at zero and keep the
requested state. -/
lemma psrDrains_spec (b1 : BoxState) (i : Nat) (t1 : AudioTrigger)
    (hg1 : getTrig b1 i = some t1) (hst1 : t1.state ≠ TState.None) :
    ∃ b3 t3, psrDrains b1 i = some b3 ∧ getTrig b3 i = some t3 ∧
      t3.bang = 0 ∧ t3.unbang = 0 ∧ t3.requested = t1.requested := by
  obtain ⟨b2, t2, hdb, hg2, hb0, hreq2, hst2⟩ :=
    drainBangs_spec i t1.bang b1 t1 hg1 rfl hst1
  obtain ⟨b3, t3, hdu, hg3, hu0, hbb, hreq3⟩ :=
    drainUnbangs_spec i t2.unbang b2 t2 hg2 rfl
  refine ⟨b3, t3, ?_, hg3, ?_, hu0, ?_⟩
  · simp only [psrDrains, hg1, hdb, hg2]
    exact hdu
  · rw [hbb, hb0]
  · rw [hreq3, hreq2]

/-! ### Termination of the AudioTrigger::run main loop

The `while (nframes)` loop advances the cursor by
`min (nframes, last_sample - read_index)` per pass; a pass advances by zero
only when the cursor already sits at `last_sample`, and then either the
trigger stops (loop exits) or `retrigger ()` moves the cursor back to
`start_offset + legato_offset`.  With a positive usable length the cursor
is strictly inside the clip after at most two consecutive zero-advance
passes, so `2 * nframes + 3` passes always suffice. -/

/-- The cursor facts that hold for a playing AudioTrigger (invariant I6 of
the spec plus a positive usable length and a legato offset inside the
clip). -/
def runInv (t : AudioTrigger) : Prop :=
  t.readIndex ≤ t.lastSample ∧
  t.startOffset + t.legatoOffset ≤ t.lastSample ∧
  t.startOffset < t.lastSample ∧
  0 ≤ t.legatoOffset

/-- Extra fuel a state can consume through zero-advance passes. -/
def runPenalty (t : AudioTrigger) : Nat :=
  (if t.lastSample ≤ t.readIndex then 1 else 0) +
  (if t.legatoOffset ≠ 0 then 1 else 0)

lemma length_setTrig (b : BoxState) (i : Nat) (t : AudioTrigger) :
    (setTrig b i t).triggers.length = b.triggers.length := by
  simp [setTrig]

/-- The main loop of AudioTrigger::run terminates within the fuel bound and
either keeps the state or sets it to Stopped. -/
lemma audioRunLoop_spec (i : Nat) :
    ∀ (fuel : Nat) (b : BoxState) (t : AudioTrigger) (nframes : Int),
      getTrig b i = some t → runInv t → 0 ≤ nframes →
      2 * nframes.toNat + runPenalty t < fuel →
      ∃ b2 t2, audioRunLoop i fuel b nframes = some b2 ∧
        getTrig b2 i = some t2 ∧
        (t2.state = t.state ∨ t2.state = TState.Stopped) := by
  intro fuel
  induction fuel with
  | zero =>
    intro b t nf h hinv hnf hfuel
    omega
  | succ f ih =>
    intro b t nf h hinv hnf hfuel
    obtain ⟨hi1, hi2, hi3, hi4⟩ := hinv
    have hlt := getTrig_lt b i t h
    simp only [audioRunLoop, h]
    by_cases h0 : nf = 0
    · rw [if_pos h0]
      exact ⟨b, t, rfl, h, Or.inl rfl⟩
    rw [if_neg h0]
    have hRcases := min_cases nf (t.lastSample - t.readIndex)
    generalize hRg : min nf (t.lastSample - t.readIndex) = R at hRcases ⊢
    split
    next hend =>
      split
      next hrep =>
        have hg2 : getTrig (setTrig
            (setTrig b i { t with readIndex := t.readIndex + R }) i
            (retrigger { t with readIndex := t.readIndex + R })) i =
            some (retrigger { t with readIndex := t.readIndex + R }) :=
          getTrig_setTrig_self _ _ _ (by rw [length_setTrig]; exact hlt)
        have hinv2 : runInv (retrigger { t with
            readIndex := t.readIndex + R }) := by
          simp [retrigger, runInv]
          omega
        have hfuel2 : 2 * (nf - R).toNat +
            runPenalty (retrigger { t with
              readIndex := t.readIndex + R }) < f := by
          have hpen2 : runPenalty (retrigger { t with
              readIndex := t.readIndex + R }) =
              if t.lastSample ≤ t.startOffset + t.legatoOffset then 1
              else 0 := by
            simp [retrigger, runPenalty]
          rw [hpen2]
          unfold runPenalty at hfuel
          rcases hRcases with ⟨he, hle⟩ | ⟨he, hle⟩ <;>
            split_ifs at hfuel ⊢ <;> omega
        obtain ⟨b3, t3, hrec, hg3, hst3⟩ :=
          ih _ _ _ hg2 hinv2 (by omega) hfuel2
        refine ⟨b3, t3, hrec, hg3, ?_⟩
        simpa [retrigger] using hst3
      next hrep =>
        refine ⟨_,
          { t with readIndex := t.readIndex + R, state := TState.Stopped },
          rfl, ?_, Or.inr rfl⟩
        exact getTrig_setTrig_self _ _ _ (by rw [length_setTrig]; exact hlt)
    next hend =>
      have hg1 : getTrig
          (setTrig b i { t with readIndex := t.readIndex + R }) i =
          some { t with readIndex := t.readIndex + R } :=
        getTrig_setTrig_self _ _ _ hlt
      have hinv1 : runInv { t with readIndex := t.readIndex + R } := by
        simp at hend
        simp [runInv]
        omega
      have hfuel1 : 2 * (nf - R).toNat +
          runPenalty { t with readIndex := t.readIndex + R } < f := by
        simp at hend
        unfold runPenalty at hfuel ⊢
        rcases hRcases with ⟨he, hle⟩ | ⟨he, hle⟩ <;>
          split_ifs at hfuel ⊢ <;> simp_all <;> omega
      obtain ⟨b3, t3, hrec, hg3, hst3⟩ :=
        ih _ _ _ hg1 hinv1 (by omega) hfuel1
      exact ⟨b3, t3, hrec, hg3, hst3⟩

/-! ### Helper lemmas for prepare_next -/

/-- queue_implicit never touches the trigger array. -/
lemma getTrig_queue_implicit (b : BoxState) (k j : Nat) :
    getTrig (queue_implicit b k) j = getTrig b j := by
  unfold queue_implicit
  split
  · split <;> rfl
  · rfl

/-- Every follow action except AnyTrigger / OtherTrigger resolves without
consuming further random draws. -/
lemma followSwitch_some (b : BoxState) (cur : Nat) (w : FollowAction)
    (rest : List Nat) (hA : w ≠ FollowAction.AnyTrigger)
    (hO : w ≠ FollowAction.OtherTrigger) :
    ∃ n, followSwitch b cur w rest = some (n, rest) := by
  cases w with
  | Stop => exact ⟨-1, rfl⟩
  | QueuedTrigger => exact ⟨-1, rfl⟩
  | AnyTrigger => exact absurd rfl hA
  | OtherTrigger => exact absurd rfl hO
  | Again =>
    simp only [followSwitch]
    by_cases h : countRunnable b = 1
    · rw [if_pos h]; exact ⟨_, rfl⟩
    · rw [if_neg h]; exact ⟨_, rfl⟩
  | NextTrigger =>
    simp only [followSwitch]
    by_cases h : countRunnable b = 1
    · rw [if_pos h]; exact ⟨_, rfl⟩
    · rw [if_neg h]; exact ⟨_, rfl⟩
  | PrevTrigger =>
    simp only [followSwitch]
    by_cases h : countRunnable b = 1
    · rw [if_pos h]; exact ⟨_, rfl⟩
    · rw [if_neg h]; exact ⟨_, rfl⟩
  | FirstTrigger =>
    simp only [followSwitch]
    by_cases h : countRunnable b = 1
    · rw [if_pos h]; exact ⟨_, rfl⟩
    · rw [if_neg h]; exact ⟨_, rfl⟩
  | LastTrigger =>
    simp only [followSwitch]
    by_cases h : countRunnable b = 1
    · rw [if_pos h]; exact ⟨_, rfl⟩
    · rw [if_neg h]; exact ⟨_, rfl⟩

/-- determine_next_trigger consumes exactly one draw when the chosen follow
action is not AnyTrigger / OtherTrigger. -/
lemma determine_some (b : BoxState) (cur : Nat) (ct : AudioTrigger)
    (hc : b.triggers[cur]? = some ct)
    (hA0 : ct.followAction0 ≠ FollowAction.AnyTrigger)
    (hO0 : ct.followAction0 ≠ FollowAction.OtherTrigger)
    (hA1 : ct.followAction1 ≠ FollowAction.AnyTrigger)
    (hO1 : ct.followAction1 ≠ FollowAction.OtherTrigger)
    (v : Nat) (rest : List Nat) :
    ∃ n, determine_next_trigger b cur (v :: rest) = some (n, rest) := by
  simp only [determine_next_trigger, hc]
  by_cases hr : ((v % 100 : Nat) : Int) ≤ ct.followActionProbability
  · rw [if_pos hr]
    exact followSwitch_some b cur _ rest hA0 hO0
  · rw [if_neg hr]
    exact followSwitch_some b cur _ rest hA1 hO1

/-- prepare_next succeeds under the same conditions, and only changes the
implicit queue and the random stream. -/
lemma prepare_next_some (b : BoxState) (cur : Nat) (ct : AudioTrigger)
    (hc : b.triggers[cur]? = some ct)
    (hA0 : ct.followAction0 ≠ FollowAction.AnyTrigger)
    (hO0 : ct.followAction0 ≠ FollowAction.OtherTrigger)
    (hA1 : ct.followAction1 ≠ FollowAction.AnyTrigger)
    (hO1 : ct.followAction1 ≠ FollowAction.OtherTrigger)
    (hrng : b.rng ≠ []) :
    ∃ b2, prepare_next b cur = some b2 ∧
      ∀ j, getTrig b2 j = getTrig b j := by
  obtain ⟨v, rest, hvr⟩ : ∃ v rest, b.rng = v :: rest := by
    cases hr : b.rng with
    | nil => exact absurd hr hrng
    | cons v rest => exact ⟨v, rest, rfl⟩
  obtain ⟨n, hd⟩ := determine_some b cur ct hc hA0 hO0 hA1 hO1 v rest
  simp only [prepare_next, hvr, hd]
  by_cases h0 : (0 : Int) ≤ n
  · rw [if_pos h0]
    refine ⟨_, rfl, fun j => ?_⟩
    rw [getTrig_queue_implicit]
    rfl
  · rw [if_neg h0]
    exact ⟨_, rfl, fun j => rfl⟩

/-- prepare_next run on a freshly written trigger slot succeeds and leaves
that slot's trigger readable unchanged. -/
lemma prepare_next_after_set (b : BoxState) (i : Nat) (tr : AudioTrigger)
    (hlt : i < b.triggers.length)
    (hA0 : tr.followAction0 ≠ FollowAction.AnyTrigger)
    (hO0 : tr.followAction0 ≠ FollowAction.OtherTrigger)
    (hA1 : tr.followAction1 ≠ FollowAction.AnyTrigger)
    (hO1 : tr.followAction1 ≠ FollowAction.OtherTrigger)
    (hrng : b.rng ≠ []) :
    ∃ b3, prepare_next (setTrig b i tr) i = some b3 ∧
      getTrig b3 i = some tr := by
  have hg : getTrig (setTrig b i tr) i = some tr :=
    getTrig_setTrig_self _ _ _ hlt
  obtain ⟨b3, hp, hpg⟩ :=
    prepare_next_some _ i tr hg hA0 hO0 hA1 hO1 (by exact hrng)
  refine ⟨b3, hp, ?_⟩
  rw [hpg i]
  exact hg

/-! ## Claim theorems -/

/-- C8: TriggerBox::run with `start_sample < 0` returns immediately and the
whole box state — every trigger's state, bang, unbang and requested_state,
both launch queues and currently_playing — is unchanged. -/
theorem C8_box_run_negative_start (snap : Int → Int → Int → Int)
    (toSamples : Int → Int) (fuel : Nat) (b : BoxState)
    (events : List MidiEvent) (startSample endSample nframes startB endB : Int)
    (h : startSample < 0) :
    box_run snap toSamples fuel b events startSample endSample nframes
      startB endB = some b := by
  unfold box_run
  rw [if_pos h]

/-- Witness for C8 at a concrete negative start sample. -/
theorem C8_box_run_negative_start_witness :
    box_run (fun s _ _ => s) (fun x => x) 8 mkDefaultBox [] (-1) 1023 1024
      0 2 = some mkDefaultBox :=
  C8_box_run_negative_start (fun s _ _ => s) (fun x => x) 8 mkDefaultBox []
    (-1) 1023 1024 0 2 (by norm_num)

lemma implicitQueue_updTrig (b : BoxState) (k : Nat)
    (f : AudioTrigger → AudioTrigger) :
    (updTrig b k f).implicitQueue = b.implicitQueue := by
  unfold updTrig
  cases b.triggers[k]? <;> rfl

/-- C9: every call to TriggerBox::queue_explict leaves the implicit queue
empty, and when some trigger is currently playing its unbang counter is
incremented by one. -/
theorem C9_queue_explict_clears_implicit_and_unbangs (b : BoxState)
    (i : Nat) :
    (queue_explict b i).implicitQueue = [] ∧
    (∀ j tj, b.currentlyPlaying = some j → getTrig b j = some tj →
      ∃ tj2, getTrig (queue_explict b i) j = some tj2 ∧
        tj2.unbang = tj.unbang + 1) := by
  constructor
  · unfold queue_explict
    cases b.currentlyPlaying with
    | none => rfl
    | some cp =>
      unfold bumpUnbang
      rw [implicitQueue_updTrig]
  · intro j tj hcp hgj
    simp only [queue_explict, hcp]
    refine ⟨{ tj with unbang := tj.unbang + 1 }, ?_, rfl⟩
    rw [getTrig_bumpUnbang_self]
    have h2 : getTrig { b with
        explicitQueue := if b.explicitQueue.length < 64 then
          b.explicitQueue ++ [i] else b.explicitQueue,
        implicitQueue := ([] : List Nat),
        currentlyPlaying := some j } j = getTrig b j := rfl
    rw [h2, hgj]
    rfl

/-- A default box where slot 1 is currently playing and the implicit queue
holds slot 2: the witness configuration for the queue_explict claim. -/
def c9box : BoxState :=
  { mkDefaultBox with implicitQueue := [2], currentlyPlaying := some 1 }

/-- Witness for C9: a box with slot 1 playing; queueing slot 0 explicitly
clears the implicit queue and unbangs slot 1. -/
theorem C9_queue_explict_witness :
    (queue_explict c9box 0).implicitQueue = [] ∧
    (∃ tj2, getTrig (queue_explict c9box 0) 1 = some tj2 ∧
      tj2.unbang = (mkAudioTrigger 1).unbang + 1) := by
  have h := C9_queue_explict_clears_implicit_and_unbangs c9box 0
  exact ⟨h.1, h.2 1 (mkAudioTrigger 1) rfl (by decide)⟩

/-- C10 (code bug): a MIDI note-on whose note number is absent from
midi_trigger_map leaves the local `Trigger* t` null and `t->bang ()`
dereferences it; and the default map sends notes 68/69 to slots 8/9 while
a default box has only 8 slots, so `all_triggers[mt->second]` violates the
code's own assertion.  Both are modelled as `none`. -/
theorem C10_process_midi_trigger_requests_unsafe :
    process_midi_trigger_requests mkDefaultBox [MidiEvent.noteOn 70] = none ∧
    process_midi_trigger_requests mkDefaultBox [MidiEvent.noteOn 68] = none ∧
    mkDefaultBox.midiMap.lookup 68 = some 8 ∧
    mkDefaultBox.triggers.length = 8 ∧
    (∃ b2, process_midi_trigger_requests mkDefaultBox
      [MidiEvent.noteOn 60] = some b2) := by
  refine ⟨rfl, rfl, rfl, rfl, ⟨_, rfl⟩⟩

/-- A configured AudioTrigger to serialize: every persisted field differs
from the fresh-constructor default. -/
def c2orig : AudioTrigger :=
  { mkAudioTrigger 3 with
      legato := false
      launchStyle := .Gate
      followAction0 := .Again
      followAction1 := .PrevTrigger
      quantBeats := 2
      quantTicks := 10
      name := "clip"
      region := some ⟨7, 200, 2⟩
      startOffset := 100
      usableLength := 200
      lastSample := 300
      dataLength := 200 }

/-- The result of deserializing c2orig's node into a fresh AudioTrigger in
a session whose region registry does not resolve the region id. -/
def c2restored : Int × AudioTrigger :=
  audio_trigger_set_state (fun _ => none) (audio_trigger_get_state c2orig)
    (mkAudioTrigger 0)

/-- C2 (code bug): AudioTrigger::set_state tests
`if (!Trigger::set_state (node, version)) return -1;`, but
Trigger::set_state returns 0 on success, so the branch is always taken:
set_state reports failure and never applies the `start` / `length`
properties.  The Trigger-level fields round-trip (Trigger::set_state has
already mutated them), but the start offset and usable length do not. -/
theorem C2_roundtrip_loses_start_and_length :
    c2restored.1 = -1 ∧
    c2restored.2.legato = c2orig.legato ∧
    c2restored.2.launchStyle = c2orig.launchStyle ∧
    c2restored.2.followAction0 = c2orig.followAction0 ∧
    c2restored.2.followAction1 = c2orig.followAction1 ∧
    c2restored.2.quantBars = c2orig.quantBars ∧
    c2restored.2.quantBeats = c2orig.quantBeats ∧
    c2restored.2.quantTicks = c2orig.quantTicks ∧
    c2restored.2.name = c2orig.name ∧
    c2restored.2.index = c2orig.index ∧
    c2restored.2.startOffset = 0 ∧
    c2orig.startOffset = 100 ∧
    c2restored.2.usableLength = 0 ∧
    c2orig.usableLength = 200 := by
  decide

/-- C7 counterexample: load_data on a trigger whose usable_length is still
zero (unset) sets usable_length to the full data length, not to
`min (existing usable_length, data_length) = 0`. -/
theorem C7_load_data_counterexample :
    (load_data (mkAudioTrigger 0) ⟨1, 5, 1⟩).dataLength = 5 ∧
    (load_data (mkAudioTrigger 0) ⟨1, 5, 1⟩).usableLength = 5 ∧
    min (mkAudioTrigger 0).usableLength
      (load_data (mkAudioTrigger 0) ⟨1, 5, 1⟩).dataLength = 0 ∧
    (5 : Int) ≠ 0 := by
  decide

/-- C7 (amended): load_data sets data_length to the region's length in
samples; usable_length becomes `min (existing, data_length)` when the
existing value is positive and the full data_length when the existing
value is zero (unset); usable_length never exceeds data_length; and
whenever usable_length is updated, last_sample equals start_offset plus
the new usable_length. -/
theorem C7_load_data_sets_lengths (t : AudioTrigger) (ar : RegionInfo)
    (h0 : 0 ≤ t.usableLength) (hr : 0 ≤ ar.lengthSamples) :
    (load_data t ar).dataLength = ar.lengthSamples ∧
    (0 < t.usableLength →
      (load_data t ar).usableLength = min t.usableLength ar.lengthSamples) ∧
    (t.usableLength = 0 →
      (load_data t ar).usableLength = ar.lengthSamples) ∧
    (load_data t ar).usableLength ≤ ar.lengthSamples ∧
    ((load_data t ar).usableLength ≠ t.usableLength →
      (load_data t ar).lastSample =
        t.startOffset + (load_data t ar).usableLength) := by
  have hm := min_cases t.usableLength ar.lengthSamples
  simp only [load_data]
  split
  next hcond =>
    refine ⟨rfl, ?_, fun _ => rfl, le_refl _, fun _ => rfl⟩
    intro hpos
    dsimp only
    rcases hm with ⟨he, hle⟩ | ⟨he, hle⟩ <;> rcases hcond with hz | hgt <;> omega
  next hcond =>
    push_neg at hcond
    refine ⟨rfl, ?_, ?_, ?_, ?_⟩
    · intro hpos
      dsimp only
      rcases hm with ⟨he, hle⟩ | ⟨he, hle⟩ <;> omega
    · intro hz
      exact absurd hz hcond.1
    · dsimp only
      omega
    · intro hne
      exact absurd rfl hne

/-- The trigger used in the C7 witness: usable_length 7 already set. -/
def c7trig : AudioTrigger :=
  { mkAudioTrigger 0 with
      usableLength := 7
      startOffset := 2
      lastSample := 9 }

/-- Witness for C7 at a concrete trigger and region. -/
theorem C7_load_data_sets_lengths_witness :
    (load_data c7trig ⟨1, 5, 1⟩).dataLength = 5 ∧
    (load_data c7trig ⟨1, 5, 1⟩).usableLength ≤ 5 := by
  have h := C7_load_data_sets_lengths c7trig ⟨1, 5, 1⟩ (by decide) (by decide)
  exact ⟨h.1, h.2.2.2.1⟩

lemma stopRequestTransition_frame (t : AudioTrigger) :
    (stopRequestTransition t).bang = t.bang ∧
    (stopRequestTransition t).unbang = t.unbang ∧
    (stopRequestTransition t).requested = t.requested ∧
    ((stopRequestTransition t).state = t.state ∨
      (stopRequestTransition t).state = TState.WaitingToStop) := by
  unfold stopRequestTransition
  split
  · exact ⟨rfl, rfl, rfl, Or.inr rfl⟩
  · exact ⟨rfl, rfl, rfl, Or.inl rfl⟩

/-- C3: a single call to process_state_requests (with no concurrent
increments) leaves the trigger's bang and unbang counters at zero and the
requested_state atomic at None. -/
theorem C3_process_state_requests_drains_counters (b : BoxState) (i : Nat)
    (t : AudioTrigger) (h : getTrig b i = some t)
    (hs : t.state ≠ TState.None) :
    ∃ b2 t2, process_state_requests b i = some b2 ∧
      getTrig b2 i = some t2 ∧ t2.bang = 0 ∧ t2.unbang = 0 ∧
      t2.requested = TState.None := by
  have hlt := getTrig_lt b i t h
  have hb0 : getTrig (setTrig b i { t with requested := TState.None }) i =
      some { t with requested := TState.None } :=
    getTrig_setTrig_self _ _ _ hlt
  simp only [process_state_requests, h]
  by_cases hcond : t.requested ≠ TState.None ∧ t.requested ≠ t.state
  · rw [if_pos hcond]
    cases hreq : t.requested with
    | None => exact absurd hreq hcond.1
    | Stopped =>
      have hg1 : getTrig (updTrig
          (setTrig b i { t with requested := TState.None }) i
          stopRequestTransition) i =
          some (stopRequestTransition { t with requested := TState.None }) := by
        rw [getTrig_updTrig_self, hb0]
        rfl
      obtain ⟨hfb, hfu, hfr, hfs⟩ :=
        stopRequestTransition_frame { t with requested := TState.None }
      obtain ⟨b3, t3, hps, hg3, hb3, hu3, hr3⟩ := psrDrains_spec _ i _ hg1 (by
        rcases hfs with hfs | hfs <;> rw [hfs]
        · exact hs
        · decide)
      exact ⟨b3, t3, hps, hg3, hb3, hu3, by rw [hr3, hfr]⟩
    | Running =>
      rcases queue_explict_getTrig _ i i _ hb0 with hq | hq
      · obtain ⟨b3, t3, hps, hg3, hb3, hu3, hr3⟩ :=
          psrDrains_spec _ i _ hq (by exact hs)
        exact ⟨b3, t3, hps, hg3, hb3, hu3, by rw [hr3]⟩
      · obtain ⟨b3, t3, hps, hg3, hb3, hu3, hr3⟩ :=
          psrDrains_spec _ i _ hq (by exact hs)
        exact ⟨b3, t3, hps, hg3, hb3, hu3, by rw [hr3]⟩
    | WaitingToStart =>
      obtain ⟨b3, t3, hps, hg3, hb3, hu3, hr3⟩ :=
        psrDrains_spec _ i _ hb0 (by exact hs)
      exact ⟨b3, t3, hps, hg3, hb3, hu3, by rw [hr3]⟩
    | WaitingForRetrigger =>
      obtain ⟨b3, t3, hps, hg3, hb3, hu3, hr3⟩ :=
        psrDrains_spec _ i _ hb0 (by exact hs)
      exact ⟨b3, t3, hps, hg3, hb3, hu3, by rw [hr3]⟩
    | WaitingToStop =>
      obtain ⟨b3, t3, hps, hg3, hb3, hu3, hr3⟩ :=
        psrDrains_spec _ i _ hb0 (by exact hs)
      exact ⟨b3, t3, hps, hg3, hb3, hu3, by rw [hr3]⟩
    | Stopping =>
      obtain ⟨b3, t3, hps, hg3, hb3, hu3, hr3⟩ :=
        psrDrains_spec _ i _ hb0 (by exact hs)
      exact ⟨b3, t3, hps, hg3, hb3, hu3, by rw [hr3]⟩
  · rw [if_neg hcond]
    obtain ⟨b3, t3, hps, hg3, hb3, hu3, hr3⟩ :=
      psrDrains_spec _ i _ hb0 (by exact hs)
    exact ⟨b3, t3, hps, hg3, hb3, hu3, by rw [hr3]⟩

/-- The witness trigger for C3: two pending bangs, one pending unbang and
a pending Stopped request. -/
def c3trig : AudioTrigger :=
  { mkAudioTrigger 0 with
      bang := 2
      unbang := 1
      requested := TState.Stopped }

/-- The witness box for C3: c3trig sits in slot 0 of a default box. -/
def c3box : BoxState :=
  { mkDefaultBox with triggers := mkDefaultBox.triggers.set 0 c3trig }

/-- Witness for C3 at the concrete box c3box. -/
theorem C3_process_state_requests_witness :
    ∃ b2 t2, process_state_requests c3box 0 = some b2 ∧
      getTrig b2 0 = some t2 ∧ t2.bang = 0 ∧ t2.unbang = 0 ∧
      t2.requested = TState.None :=
  C3_process_state_requests_drains_counters c3box 0 c3trig
    (by decide) (by decide)

/-- C4: determine_next_trigger returns −1 when the selected follow action
is Stop or QueuedTrigger; returns current for Again; returns current when
exactly one trigger has a region (and the action is not Stop /
QueuedTrigger); and for NextTrigger returns the first slot with a region
and not active in the order (current+1) mod N, (current+2) mod N, …, each
other index probed at most once, falling back to current. -/
theorem C4_determine_next_trigger_cases (b : BoxState) (current : Nat)
    (ct : AudioTrigger) (v : Nat) (rest : List Nat) (w : FollowAction)
    (hc : b.triggers[current]? = some ct)
    (hw : (if ((v % 100 : Nat) : Int) ≤ ct.followActionProbability
           then ct.followAction0 else ct.followAction1) = w) :
    ((w = FollowAction.Stop ∨ w = FollowAction.QueuedTrigger) →
      determine_next_trigger b current (v :: rest) = some (-1, rest)) ∧
    (w = FollowAction.Again →
      determine_next_trigger b current (v :: rest) =
        some ((current : Int), rest)) ∧
    (w ≠ FollowAction.Stop → w ≠ FollowAction.QueuedTrigger →
      countRunnable b = 1 →
      determine_next_trigger b current (v :: rest) =
        some ((current : Int), rest)) ∧
    (w = FollowAction.NextTrigger → countRunnable b ≠ 1 →
      determine_next_trigger b current (v :: rest) =
        some (((nextScanSpec b current : Nat) : Int), rest)) := by
  have hcur : current < b.triggers.length := getTrig_lt b current ct hc
  simp only [determine_next_trigger, hc, hw]
  refine ⟨?_, ?_, ?_, ?_⟩
  · rintro (rfl | rfl) <;> rfl
  · rintro rfl
    simp only [followSwitch]
    by_cases h : countRunnable b = 1
    · rw [if_pos h]
    · rw [if_neg h]
  · intro hS hQ h1
    cases w
    case Stop => exact absurd rfl hS
    case QueuedTrigger => exact absurd rfl hQ
    all_goals
      simp only [followSwitch]
      rw [if_pos h1]
  · rintro rfl hno
    simp only [followSwitch]
    rw [if_neg hno, scanUp_spec b current hcur]
    rfl

/-- Witness for C4: a default box (no regions, NextTrigger/Stop defaults)
with the roll 0 selecting NextTrigger; the scan finds no candidate and
falls back to current. -/
theorem C4_determine_next_trigger_witness :
    determine_next_trigger mkDefaultBox 0 [0] =
      some (((nextScanSpec mkDefaultBox 0 : Nat) : Int), []) ∧
    nextScanSpec mkDefaultBox 0 = 0 := by
  have h := C4_determine_next_trigger_cases mkDefaultBox 0 (mkAudioTrigger 0)
    0 [] FollowAction.NextTrigger (by decide) (by decide)
  exact ⟨h.2.2.2 rfl (by decide), by decide⟩

/-- Slot 0 of the C5 counterexample: playing, with a region. -/
def c5trigA : AudioTrigger :=
  { mkAudioTrigger 0 with
      region := some ⟨1, 100, 1⟩
      state := TState.Running }

/-- Slot 1 of the C5 counterexample: also playing, with a region. -/
def c5trigB : AudioTrigger :=
  { mkAudioTrigger 1 with
      region := some ⟨2, 100, 1⟩
      state := TState.Running }

/-- The C5 counterexample box: two runnable triggers, both active. -/
def c5box : BoxState :=
  { triggers := [c5trigA, c5trigB]
    explicitQueue := []
    implicitQueue := []
    currentlyPlaying := some 0
    stopAll := false
    midiMap := []
    rng := [] }

/-- C5 counterexample: with two runnable but active triggers and follow
action NextTrigger (probability 100, roll 0), determine_next_trigger
returns slot 0, whose trigger is active — the claim's only exceptions
(Again, or exactly one runnable trigger) do not apply, yet the returned
slot is active. -/
theorem C5_counterexample_returns_active_slot :
    determine_next_trigger c5box 0 [0] = some (0, []) ∧
    (c5box.triggers[0]?).map (fun t => t.region.isSome) = some true ∧
    (c5box.triggers[0]?).map (fun t => activeState t.state) = some true ∧
    (c5box.triggers[0]?).map (fun t => t.followAction0) =
      some FollowAction.NextTrigger ∧
    (c5box.triggers[0]?).map (fun t => t.followActionProbability) =
      some 100 ∧
    countRunnable c5box = 2 := by
  decide

/-- C5 (amended): whenever determine_next_trigger returns a non-negative
index n, the slot has a non-null region and is not active, or n equals
current (the Again action, the single-runnable case, or a scan that found
no candidate and fell back to current). -/
theorem C5_selection_ok_or_current (b : BoxState) (current : Nat)
    (rands : List Nat) (n : Int) (rest : List Nat)
    (h : determine_next_trigger b current rands = some (n, rest))
    (hn : 0 ≤ n) :
    trigOk b n.toNat = true ∨ n = (current : Int) := by
  cases hc : b.triggers[current]? with
  | none =>
    simp only [determine_next_trigger, hc] at h
    cases rands <;> simp at h
  | some ct =>
    cases rands with
    | nil =>
      simp only [determine_next_trigger, hc] at h
      simp at h
    | cons v rest2 =>
      simp only [determine_next_trigger, hc] at h
      generalize hw : (if ((v % 100 : Nat) : Int) ≤ ct.followActionProbability
        then ct.followAction0 else ct.followAction1) = w at h
      cases w with
      | Stop =>
        simp only [followSwitch] at h
        cases h
        exact absurd hn (by decide)
      | QueuedTrigger =>
        simp only [followSwitch] at h
        cases h
        exact absurd hn (by decide)
      | Again =>
        simp only [followSwitch] at h
        split at h <;> (cases h; exact Or.inr rfl)
      | NextTrigger =>
        simp only [followSwitch] at h
        split at h
        · cases h
          exact Or.inr rfl
        · cases h
          cases hsc : scanUp b current b.triggers.length current with
          | none => exact Or.inr rfl
          | some m =>
            left
            simpa using scanUp_ok b current _ _ m hsc
      | PrevTrigger =>
        simp only [followSwitch] at h
        split at h
        · cases h
          exact Or.inr rfl
        · cases h
          cases hsc : scanDown b current b.triggers.length current with
          | none => exact Or.inr rfl
          | some m =>
            left
            simpa using scanDown_ok b current _ _ m hsc
      | FirstTrigger =>
        simp only [followSwitch] at h
        split at h
        · cases h
          exact Or.inr rfl
        · cases h
          cases hsc : (List.range b.triggers.length).find? (trigOk b) with
          | none => exact Or.inr rfl
          | some m =>
            left
            simpa using List.find?_some hsc
      | LastTrigger =>
        simp only [followSwitch] at h
        split at h
        · cases h
          exact Or.inr rfl
        · cases h
          cases hsc : (List.range b.triggers.length).reverse.find?
              (trigOk b) with
          | none => exact Or.inr rfl
          | some m =>
            left
            simpa using List.find?_some hsc
      | AnyTrigger =>
        simp only [followSwitch] at h
        split at h
        · cases h
          exact Or.inr rfl
        · cases hal : anyLoop b rest2 with
          | none => rw [hal] at h; cases h
          | some p =>
            rw [hal] at h
            obtain ⟨m, r2⟩ := p
            simp only [Option.map] at h
            cases h
            left
            simpa using anyLoop_ok b rest2 m _ hal
      | OtherTrigger =>
        simp only [followSwitch] at h
        split at h
        · cases h
          exact Or.inr rfl
        · cases hal : otherLoop b current rest2 with
          | none => rw [hal] at h; cases h
          | some p =>
            rw [hal] at h
            obtain ⟨m, r2⟩ := p
            simp only [Option.map] at h
            cases h
            left
            simpa using otherLoop_ok b current rest2 m _ hal

/-- Witness for amended C5 at a concrete input. -/
theorem C5_selection_witness :
    trigOk mkDefaultBox (0 : Int).toNat = true ∨ (0 : Int) = ((0 : Nat) : Int) :=
  C5_selection_ok_or_current mkDefaultBox 0 [0] 0 [] (by decide) (by decide)

/-- C1: maybe_compute_next_transition returns RunNone when Stopped and
RunAll when Running or Stopping; in a waiting state with quantization bars
zero, writing `ev` for the block start snapped to the quantization grid:
if ev lies in [start, end) then WaitingToStop enters Stopping and returns
RunEnd, WaitingToStart retriggers, enters Running and returns RunStart,
and WaitingForRetrigger retriggers, enters Running and returns RunAll;
if ev lies outside [start, end) then WaitingForRetrigger and WaitingToStop
return RunAll and WaitingToStart returns RunNone.  (The PRNG stream must be
non-empty and the follow actions deterministic so that the prepare_next
call inside the start transitions terminates.) -/
theorem C1_maybe_compute_next_transition_cases
    (snap : Int → Int → Int → Int) (toSamples : Int → Int)
    (b : BoxState) (i : Nat) (t : AudioTrigger) (startB endB ev : Int)
    (hi : getTrig b i = some t)
    (hev : snap startB t.quantBeats t.quantTicks = ev)
    (hrng : b.rng ≠ [])
    (hA0 : t.followAction0 ≠ FollowAction.AnyTrigger)
    (hO0 : t.followAction0 ≠ FollowAction.OtherTrigger)
    (hA1 : t.followAction1 ≠ FollowAction.AnyTrigger)
    (hO1 : t.followAction1 ≠ FollowAction.OtherTrigger) :
    (t.state = TState.Stopped →
      maybe_compute_next_transition snap toSamples b i startB endB =
        some (RunType.RunNone, b)) ∧
    (t.state = TState.Running →
      maybe_compute_next_transition snap toSamples b i startB endB =
        some (RunType.RunAll, b)) ∧
    (t.state = TState.Stopping →
      maybe_compute_next_transition snap toSamples b i startB endB =
        some (RunType.RunAll, b)) ∧
    (t.quantBars = 0 → startB ≤ ev → ev < endB →
      ((t.state = TState.WaitingToStop →
        ∃ b2, maybe_compute_next_transition snap toSamples b i startB endB =
            some (RunType.RunEnd, b2) ∧
          getTrig b2 i = some { t with
            state := TState.Stopping
            bangSamples := toSamples ev
            bangBeats := ev }) ∧
      (t.state = TState.WaitingToStart →
        ∃ b2 t2,
          maybe_compute_next_transition snap toSamples b i startB endB =
            some (RunType.RunStart, b2) ∧
          getTrig b2 i = some t2 ∧ t2.state = TState.Running ∧
          t2.readIndex = t.startOffset + t.legatoOffset ∧
          t2.legatoOffset = 0) ∧
      (t.state = TState.WaitingForRetrigger →
        ∃ b2 t2,
          maybe_compute_next_transition snap toSamples b i startB endB =
            some (RunType.RunAll, b2) ∧
          getTrig b2 i = some t2 ∧ t2.state = TState.Running ∧
          t2.readIndex = t.startOffset + t.legatoOffset ∧
          t2.legatoOffset = 0))) ∧
    (t.quantBars = 0 → ¬(startB ≤ ev ∧ ev < endB) →
      (((t.state = TState.WaitingForRetrigger ∨
          t.state = TState.WaitingToStop) →
        maybe_compute_next_transition snap toSamples b i startB endB =
          some (RunType.RunAll, b)) ∧
      (t.state = TState.WaitingToStart →
        maybe_compute_next_transition snap toSamples b i startB endB =
          some (RunType.RunNone, b)))) := by
  have hlt := getTrig_lt b i t hi
  refine ⟨?_, ?_, ?_, ?_, ?_⟩
  · intro hst
    simp [maybe_compute_next_transition, hi, hst]
  · intro hst
    simp [maybe_compute_next_transition, hi, hst]
  · intro hst
    simp [maybe_compute_next_transition, hi, hst]
  · intro hbars hw1 hw2
    refine ⟨?_, ?_, ?_⟩
    · intro hst
      simp only [maybe_compute_next_transition, hi, hst]
      rw [if_pos hbars, hev, if_pos ⟨hw1, hw2⟩, if_pos trivial]
      exact ⟨_, rfl, getTrig_setTrig_self _ _ _ hlt⟩
    · intro hst
      simp only [maybe_compute_next_transition, hi, hst]
      rw [if_pos hbars, hev, if_pos ⟨hw1, hw2⟩, if_neg (by decide),
        if_pos trivial]
      obtain ⟨b3, hp, hg3⟩ := prepare_next_after_set b i
        (startTransition
          { t with
              bangSamples := toSamples ev
              bangBeats := ev
              state := TState.WaitingToStart })
        hlt (by exact hA0) (by exact hO0) (by exact hA1) (by exact hO1) hrng
      simp only [hp]
      exact ⟨b3, _, rfl, hg3, rfl, rfl, rfl⟩
    · intro hst
      simp only [maybe_compute_next_transition, hi, hst]
      rw [if_pos hbars, hev, if_pos ⟨hw1, hw2⟩, if_neg (by decide),
        if_neg (by decide), if_pos trivial]
      obtain ⟨b3, hp, hg3⟩ := prepare_next_after_set b i
        (startTransition
          { t with
              bangSamples := toSamples ev
              bangBeats := ev
              state := TState.WaitingForRetrigger })
        hlt (by exact hA0) (by exact hO0) (by exact hA1) (by exact hO1) hrng
      simp only [hp]
      exact ⟨b3, _, rfl, hg3, rfl, rfl, rfl⟩
  · intro hbars hnw
    constructor
    · rintro (hst | hst) <;>
        simp only [maybe_compute_next_transition, hi, hst] <;>
        rw [if_pos hbars, hev, if_neg hnw]
      · rw [if_pos (Or.inl trivial)]
      · rw [if_pos (Or.inr trivial)]
    · intro hst
      simp only [maybe_compute_next_transition, hi, hst]
      rw [if_pos hbars, hev, if_neg hnw, if_neg (by decide)]

/-- The C1 witness trigger: waiting to start with a legato offset. -/
def c1trig : AudioTrigger :=
  { mkAudioTrigger 0 with
      state := TState.WaitingToStart
      startOffset := 2
      legatoOffset := 5 }

/-- The C1 witness box: c1trig in slot 0, one random draw available. -/
def c1box : BoxState :=
  { mkDefaultBox with
      triggers := mkDefaultBox.triggers.set 0 c1trig
      rng := [0] }

/-- Witness for C1: the WaitingToStart transition at a concrete box. -/
theorem C1_maybe_compute_next_transition_witness :
    ∃ b2 t2, maybe_compute_next_transition (fun s _ _ => s) (fun x => x)
        c1box 0 0 4 = some (RunType.RunStart, b2) ∧
      getTrig b2 0 = some t2 ∧ t2.state = TState.Running ∧
      t2.readIndex = c1trig.startOffset + c1trig.legatoOffset ∧
      t2.legatoOffset = 0 := by
  have h := C1_maybe_compute_next_transition_cases (fun s _ _ => s)
    (fun x => x) c1box 0 c1trig 0 4 0 (by decide) rfl (by decide)
    (by decide) (by decide) (by decide) (by decide)
  exact (h.2.2.2.1 rfl (by norm_num) (by norm_num)).2.1 rfl

/-- A block that ends strictly before last_sample takes a single pass of
the main loop and only advances the cursor. -/
lemma audioRunLoop_small (i : Nat) (fuel : Nat) (b : BoxState)
    (t : AudioTrigger) (nf : Int) (h : getTrig b i = some t)
    (hf : 2 ≤ fuel) (hnf : 0 < nf)
    (hsmall : t.readIndex + nf < t.lastSample) :
    audioRunLoop i fuel b nf =
      some (setTrig b i { t with readIndex := t.readIndex + nf }) := by
  obtain ⟨f, rfl⟩ : ∃ f, fuel = f + 2 := ⟨fuel - 2, by omega⟩
  have hmin : min nf (t.lastSample - t.readIndex) = nf :=
    min_eq_left (by omega)
  simp only [audioRunLoop, h]
  rw [if_neg (by omega), hmin]
  split
  next hc =>
    exfalso
    have hc2 : t.lastSample ≤ t.readIndex + nf := hc
    omega
  next hc =>
    rw [show nf - nf = (0 : Int) by omega]
    simp only [audioRunLoop]
    rw [if_pos trivial]

/-- C6: AudioTrigger::run entered in state Stopping leaves the trigger
Stopped when the block has at least 64 frames, and still Stopping when the
block is shorter than 64 frames and the cursor does not reach last_sample.
(The hypotheses are the cursor invariant of a playing trigger.) -/
theorem C6_audio_trigger_run_stopping (b : BoxState) (i : Nat)
    (t : AudioTrigger) (nframes : Int)
    (h : getTrig b i = some t)
    (hst : t.state = TState.Stopping)
    (hreg : t.region.isSome = true)
    (hnf : 0 ≤ nframes)
    (hinv : runInv t) :
    ∃ b2 t2, audio_trigger_run b i nframes = some b2 ∧
      getTrig b2 i = some t2 ∧
      (64 ≤ nframes → t2.state = TState.Stopped) ∧
      (nframes < 64 → t.readIndex + nframes < t.lastSample →
        t2.state = TState.Stopping) := by
  obtain ⟨r, hr⟩ := Option.isSome_iff_exists.mp hreg
  obtain ⟨b2, t2, hloop, hg2, hst2⟩ := audioRunLoop_spec i
    (2 * nframes.toNat + 3) b t nframes h hinv hnf
    (by unfold runPenalty; split_ifs <;> omega)
  have h1 : t.region.isNone = false := by rw [hr]; rfl
  have h2 : (!(activeState t.state)) = false := by rw [hst]; rfl
  simp only [audio_trigger_run, h, h1, h2, Bool.false_eq_true, if_false,
    hloop, hg2]
  rcases hst2 with hss | hss
  · rw [hst] at hss
    by_cases hfade : 64 ≤ nframes
    · rw [if_pos ⟨hss, hfade⟩]
      refine ⟨_, { t2 with state := TState.Stopped }, rfl,
        getTrig_setTrig_self _ _ _ (getTrig_lt _ _ _ hg2), fun _ => rfl, ?_⟩
      intro hb1 _
      omega
    · rw [if_neg (fun hcon => hfade hcon.2)]
      refine ⟨b2, t2, rfl, hg2, ?_, ?_⟩
      · intro hf
        exact absurd hf hfade
      · intro _ _
        exact hss
  · rw [if_neg (by
      intro hcon
      rw [hss] at hcon
      exact absurd hcon.1 (by decide))]
    refine ⟨b2, t2, rfl, hg2, fun _ => hss, ?_⟩
    intro hb1 hb2
    exfalso
    by_cases hz : nframes = 0
    · have hz2 : audioRunLoop i (2 * nframes.toNat + 3) b nframes =
          some b := by
        obtain ⟨f, hf⟩ : ∃ f, 2 * nframes.toNat + 3 = f + 1 :=
          ⟨2 * nframes.toNat + 2, by omega⟩
        rw [hf]
        simp [audioRunLoop, hz]
      rw [hz2] at hloop
      cases hloop
      rw [h] at hg2
      cases hg2
      rw [hst] at hss
      cases hss
    · have hsm := audioRunLoop_small i (2 * nframes.toNat + 3) b t nframes h
        (by omega) (by omega) hb2
      rw [hsm] at hloop
      cases hloop
      rw [getTrig_setTrig_self _ _ _ (getTrig_lt _ _ _ h)] at hg2
      cases hg2
      dsimp only at hss
      rw [hst] at hss
      cases hss

/-- The C6 witness trigger: Stopping, with a 10-sample clip loaded. -/
def c6trig : AudioTrigger :=
  { mkAudioTrigger 0 with
      state := TState.Stopping
      region := some ⟨3, 10, 1⟩
      dataLength := 10
      usableLength := 10
      lastSample := 10 }

/-- The C6 witness box: c6trig in slot 0. -/
def c6box : BoxState :=
  { mkDefaultBox with triggers := mkDefaultBox.triggers.set 0 c6trig }

/-- Witness for C6 at a concrete trigger and a 100-frame block. -/
theorem C6_audio_trigger_run_stopping_witness :
    ∃ b2 t2, audio_trigger_run c6box 0 100 = some b2 ∧
      getTrig b2 0 = some t2 ∧
      (64 ≤ (100 : Int) → t2.state = TState.Stopped) ∧
      ((100 : Int) < 64 → c6trig.readIndex + 100 < c6trig.lastSample →
        t2.state = TState.Stopping) :=
  C6_audio_trigger_run_stopping c6box 0 c6trig 100 (by decide) rfl rfl
    (by norm_num) ⟨by decide, by decide, by decide, by decide⟩

end ArdourSpec
